import Mathlib

/-!
Shallow embedding of the frame-streaming renderer of `egui-demo`
(`src/render.rs`, `src/render/buffer.rs`, `src/render/texture.rs`).

Machine scalars are modelled as follows: `u32`/`u64`/`usize` values become
`Nat` (with explicit saturation at `u32Max` where the source casts an `f32`
to `u32`), and the `f32` clip-rect coordinates and scale factor become `ℚ`
(every concrete coordinate exercised below is exactly representable in
`f32`, so `ℚ` arithmetic agrees with the source's `f32` arithmetic there).
-/

namespace EguiDemo

/-- Byte size of an `egui::epaint::Vertex`: pos (2 × f32) + uv (2 × f32) + packed u32 color,
i.e. `size_of::<Vertex>()` in the source. -/
def vertexSize : Nat := 20

/-- Byte size of a `u32` mesh index, i.e. `size_of::<u32>()` in the source. -/
def indexSize : Nat := 4

/-- Largest value representable in a `u32`. -/
def u32Max : Nat := 4294967295

/-- Semantics of `f32::round` on exact rationals: round half away from zero. -/
def roundHalfAway (q : ℚ) : ℤ :=
  if 0 ≤ q then ⌊q + 1/2⌋ else -⌊-q + 1/2⌋

/-- Model of `(x : f32).round() as u32` as used in `to_scissor_rect`: the rounded value
saturates to `0` from below and to `u32::MAX` from above. -/
def u32ofF32 (q : ℚ) : Nat :=
  min (roundHalfAway q).toNat u32Max

/-! ## Data model (`egui` types consumed by the renderer) -/

/-- Type `egui::TextureId`: managed (base) id or user id. -/
inductive TextureId where
  | managed (n : Nat)
  | user (n : Nat)
deriving DecidableEq, Repr

/-- Type `egui::epaint::Vertex`: position, uv (both `(f32, f32)`) and a packed `u32` color. -/
structure Vertex where
  px : ℚ
  py : ℚ
  ux : ℚ
  uy : ℚ
  color : Nat
deriving DecidableEq, Repr

/-- Type `egui::Mesh`: vertex list, `u32` index list and the texture id it samples. -/
structure Mesh where
  vertices : List Vertex
  indices : List Nat
  texture_id : TextureId
deriving DecidableEq, Repr

/-- Type `egui::epaint::Primitive`: a mesh or an (unsupported) paint callback. -/
inductive Primitive where
  | mesh (m : Mesh)
  | callback
deriving DecidableEq, Repr

/-- Type `egui::Rect` in logical points (f32 edges modelled as `ℚ`). -/
structure Rect where
  left : ℚ
  top : ℚ
  right : ℚ
  bottom : ℚ
deriving DecidableEq, Repr

/-- Type `egui::ClippedPrimitive`. -/
structure ClippedPrimitive where
  clip_rect : Rect
  primitive : Primitive
deriving DecidableEq, Repr

/-- Type `ScreenDescriptor` from `src/render.rs`. -/
structure ScreenDescriptor where
  pixel_per_point : ℚ
  screen_width : Nat
  screen_height : Nat
deriving DecidableEq, Repr

/-! ## `src/render/texture.rs` -/

/-- Type `egui::TextureFilter`. -/
inductive TextureFilter where
  | Nearest
  | Linear
deriving DecidableEq, Repr

/-- Type `egui::TextureWrapMode`. -/
inductive TextureWrapMode where
  | ClampToEdge
  | Repeat
  | MirroredRepeat
deriving DecidableEq, Repr

/-- Type `egui::TextureOptions` (the fields `into_sampler` reads). -/
structure TextureOptions where
  magnification : TextureFilter
  minification : TextureFilter
  wrap_mode : TextureWrapMode
deriving DecidableEq, Repr

/-- Type `wgpu::FilterMode`. -/
inductive FilterMode where
  | Nearest
  | Linear
deriving DecidableEq, Repr

/-- Type `wgpu::AddressMode`. -/
inductive AddressMode where
  | ClampToEdge
  | Repeat
  | MirrorRepeat
deriving DecidableEq, Repr

/-- A `wgpu::Sampler`, modelled by the descriptor fields `into_sampler` sets. -/
structure Sampler where
  mag_filter : FilterMode
  min_filter : FilterMode
  address_mode_u : AddressMode
  address_mode_v : AddressMode
deriving DecidableEq, Repr

/-- Function `into_sampler` from `src/render/texture.rs`. -/
def into_sampler (options : TextureOptions) : Sampler :=
  let address_mode :=
    match options.wrap_mode with
    | .ClampToEdge => AddressMode.ClampToEdge
    | .Repeat => AddressMode.Repeat
    | .MirroredRepeat => AddressMode.MirrorRepeat
  { mag_filter :=
      match options.magnification with
      | .Nearest => FilterMode.Nearest
      | .Linear => FilterMode.Linear
    min_filter :=
      match options.minification with
      | .Nearest => FilterMode.Nearest
      | .Linear => FilterMode.Linear
    address_mode_u := address_mode
    address_mode_v := address_mode }

/-- The sampler cache `HashMap<egui::TextureOptions, wgpu::Sampler>`, modelled
extensionally as a partial map. -/
def SamplerMap : Type := TextureOptions → Option Sampler

/-- The loop body of `update_samplers`: insert a freshly created sampler only if the
key is vacant (`hash_map::Entry::Vacant`). -/
def samplerInsert (m : SamplerMap) (options : TextureOptions) : SamplerMap :=
  match m options with
  | some _ => m
  | none => fun o => if o = options then some (into_sampler options) else m o

/-- Function `update_samplers` from `src/render/texture.rs`. -/
def update_samplers (texture_options : List TextureOptions) (samplers : SamplerMap) : SamplerMap :=
  texture_options.foldl samplerInsert samplers

/-- A GPU texture, modelled by the extent `into_texture` allocates. -/
structure GpuTexture where
  width : Nat
  height : Nat
deriving DecidableEq, Repr

/-- Type `TextureResource` from `src/render/texture.rs`; the bind group is abstracted to an
opaque handle. -/
structure TextureResource where
  texture : GpuTexture
  bind_group : Nat
deriving DecidableEq, Repr

/-- Type `egui::ColorImage` (`ImageData::Color` is the only variant the source matches). -/
structure ColorImage where
  width : Nat
  height : Nat
  pixels : List Nat
deriving DecidableEq, Repr

/-- Type `egui::epaint::ImageDelta`. -/
structure ImageDelta where
  image : ColorImage
  options : TextureOptions
  pos : Option (Nat × Nat)
deriving DecidableEq, Repr

/-- One `queue.write_texture` call issued by `send_texture_image_internal`. -/
structure TextureUpload where
  texture : GpuTexture
  origin : Nat × Nat
  size : Nat × Nat
  data : List Nat
deriving DecidableEq, Repr

/-- The texture cache `HashMap<egui::TextureId, TextureResource>`, modelled
extensionally as a partial map. -/
def TextureCache : Type := TextureId → Option TextureResource

/-- Function `send_texture_images_pos` from `src/render/texture.rs`: for each delta in order,
if its `pos` is present and its id is in the cache, upload the patch at that offset
into the cached texture; otherwise `continue`. Returns the uploads issued. -/
def send_texture_images_pos :
    List (TextureId × ImageDelta) → TextureCache → List TextureUpload
  | [], _ => []
  | (id, img) :: rest, cache =>
    match img.pos, cache id with
    | some pos, some res =>
      { texture := res.texture
        origin := pos
        size := (img.image.width, img.image.height)
        data := img.image.pixels } :: send_texture_images_pos rest cache
    | _, _ => send_texture_images_pos rest cache

/-- Function `into_texture` from `src/render/texture.rs` (allocation of a 2D RGBA texture). -/
def into_texture (size : Nat × Nat) : GpuTexture :=
  { width := size.1, height := size.2 }

/-- Function `send_texture_images_new` from `src/render/texture.rs`: for each delta whose `pos`
is absent, allocate a texture sized to the image, upload the full image, and pair it
with the cached sampler for the delta's options; `samplers.get(..).expect(..)` panics
with "Sampler must be configured" when that sampler is missing. -/
def send_texture_images_new (samplers : SamplerMap) :
    List (TextureId × ImageDelta) → Except String (List (TextureId × GpuTexture × Sampler))
  | [] => .ok []
  | (id, img) :: rest =>
    if img.pos.isSome then
      send_texture_images_new samplers rest
    else
      match samplers img.options with
      | some s =>
        (send_texture_images_new samplers rest).map
          (fun l => (id, into_texture (img.image.width, img.image.height), s) :: l)
      | none => .error "Sampler must be configured"

/-! ## `src/render/buffer.rs` -/

/-- Function `measure_buffer_size`: total vertex bytes and index bytes summed over all `Mesh`
primitives (`Callback` primitives contribute nothing). -/
def measure_buffer_size (triangles : List ClippedPrimitive) : Nat × Nat :=
  let counts := triangles.foldl
    (fun (acc : Nat × Nat) p =>
      match p.primitive with
      | .mesh m => (acc.1 + m.vertices.length, acc.2 + m.indices.length)
      | .callback => acc)
    (0, 0)
  (counts.1 * vertexSize, counts.2 * indexSize)

/-- The per-primitive writes `view[start..end].copy_from_slice(..)` performed by the
staging loop of `send_vertex_buffer`: `(start, end, data)` byte ranges, offsets
accumulating over every `Mesh` primitive in order. -/
def vertexWrites : List ClippedPrimitive → Nat → List (Nat × Nat × List Vertex)
  | [], _ => []
  | p :: rest, offset =>
    match p.primitive with
    | .mesh m =>
      (offset, offset + m.vertices.length * vertexSize, m.vertices) ::
        vertexWrites rest (offset + m.vertices.length * vertexSize)
    | .callback => vertexWrites rest offset

/-- The analogous index-byte writes performed by `send_index_buffer`. -/
def indexWrites : List ClippedPrimitive → Nat → List (Nat × Nat × List Nat)
  | [], _ => []
  | p :: rest, offset =>
    match p.primitive with
    | .mesh m =>
      (offset, offset + m.indices.length * indexSize, m.indices) ::
        indexWrites rest (offset + m.indices.length * indexSize)
    | .callback => indexWrites rest offset

/-- Function `send_vertex_buffer`: if the held capacity is `≤` the required bytes, replace the
buffer by one of `buffer_size * 2` bytes, then stage all meshes' vertex data
contiguously from offset 0. Returns the new capacity and the staged writes. -/
def send_vertex_buffer (buffer_size : Nat) (triangles : List ClippedPrimitive)
    (capacity : Nat) : Nat × List (Nat × Nat × List Vertex) :=
  let capacity := if capacity ≤ buffer_size then buffer_size * 2 else capacity
  (capacity, vertexWrites triangles 0)

/-- Function `send_index_buffer`: same growth policy and staging loop for index data. -/
def send_index_buffer (buffer_size : Nat) (triangles : List ClippedPrimitive)
    (capacity : Nat) : Nat × List (Nat × Nat × List Nat) :=
  let capacity := if capacity ≤ buffer_size then buffer_size * 2 else capacity
  (capacity, indexWrites triangles 0)

/-- Function `release_textures` from `src/render/buffer.rs`: remove every given id from the
texture cache. -/
def release_textures (ids : List TextureId) (cache : TextureCache) : TextureCache :=
  fun id => if id ∈ ids then none else cache id

/-! ## `src/render.rs` -/

/-- Function `to_scissor_rect`: scale the clip rect's edges by `pixel_per_point`, round, cast
to `u32`, clamp to `[0, screen_width] × [0, screen_height]`, and take saturating
differences; `none` when the resulting width or height is zero. -/
def to_scissor_rect (clip_rect : Rect) (screen : ScreenDescriptor) :
    Option (Nat × Nat × Nat × Nat) :=
  let x0 := u32ofF32 (clip_rect.left * screen.pixel_per_point)
  let y0 := u32ofF32 (clip_rect.top * screen.pixel_per_point)
  let x1 := u32ofF32 (clip_rect.right * screen.pixel_per_point)
  let y1 := u32ofF32 (clip_rect.bottom * screen.pixel_per_point)
  let x := min x0 screen.screen_width
  let y := min y0 screen.screen_height
  let w := min x1 screen.screen_width - x
  let h := min y1 screen.screen_height - y
  if w ≠ 0 ∧ h ≠ 0 then some (x, y, w, h) else none

/-- The bind group a foreground draw uses: the 1×1 fallback bound before the loop, or
(hypothetically) a bind group cached under a texture id. The source's `encode_fg`
only ever binds the fallback. -/
inductive BindGroupRef where
  | fallback
  | cached (id : TextureId)
deriving DecidableEq, Repr

/-- One `draw_indexed` call recorded by `encode_fg`: scissor rect, bound bind group,
vertex- and index-buffer byte slices, and the index count drawn. -/
structure DrawCmd where
  scissor : Nat × Nat × Nat × Nat
  bind : BindGroupRef
  vrange : Nat × Nat
  irange : Nat × Nat
  index_count : Nat
deriving DecidableEq, Repr

/-- The loop body of `encode_fg`, carrying `voffset` and `ioffset`. A primitive whose
scissor rect is zero-area is skipped by `continue` (before the offsets advance);
a `Mesh` primitive slices `[voffset, voffset + len)` of each buffer and draws;
a `Callback` primitive hits `panic!("Not implemented")`. -/
def encodeFgLoop (screen : ScreenDescriptor) :
    List ClippedPrimitive → Nat → Nat → Except String (List DrawCmd)
  | [], _, _ => .ok []
  | ⟨clip_rect, prim⟩ :: rest, voffset, ioffset =>
    match to_scissor_rect clip_rect screen with
    | none => encodeFgLoop screen rest voffset ioffset
    | some sc =>
      match prim with
      | .mesh m =>
        (encodeFgLoop screen rest (voffset + m.vertices.length * vertexSize)
            (ioffset + m.indices.length * indexSize)).map
          (fun ds =>
            { scissor := sc
              bind := BindGroupRef.fallback
              vrange := (voffset, voffset + m.vertices.length * vertexSize)
              irange := (ioffset, ioffset + m.indices.length * indexSize)
              index_count := m.indices.length } :: ds)
      | .callback => .error "Not implemented"

/-- Function `encode_fg` from `src/render.rs`: one foreground pass over the primitives, with
both offsets starting at 0 and the fallback bind group bound before the loop. -/
def encode_fg (screen : ScreenDescriptor) (triangles : List ClippedPrimitive) :
    Except String (List DrawCmd) :=
  encodeFgLoop screen triangles 0 0

/-- Observable outcome of `WgpuRenderer::render` for one frame. -/
structure RenderResult where
  bg_passes : Nat
  staged : Option (Nat × Nat)
  draws : List DrawCmd
  presented : Bool
deriving DecidableEq, Repr

/-- Function `WgpuRenderer::render`: always encode the background-clear pass; measure the
buffer sizes; only when both are positive, stage the buffers and encode the
foreground pass; then submit and present. -/
def render (screen : ScreenDescriptor) (triangles : List ClippedPrimitive) :
    Except String RenderResult :=
  let sizes := measure_buffer_size triangles
  if sizes.1 > 0 ∧ sizes.2 > 0 then
    match encode_fg screen triangles with
    | .ok ds => .ok { bg_passes := 1, staged := some sizes, draws := ds, presented := true }
    | .error e => .error e
  else
    .ok { bg_passes := 1, staged := none, draws := [], presented := true }

/-! ## Numeric helper lemmas for the scissor mapping -/

lemma roundHalfAway_natCast (n : ℕ) : roundHalfAway (n : ℚ) = n := by
  rw [roundHalfAway, if_pos (by positivity)]
  rw [show ⌊(n : ℚ) + 1/2⌋ = (n : ℤ) by
    rw [Int.floor_eq_iff]
    constructor
    · push_cast; linarith
    · push_cast; linarith]

lemma u32ofF32_natCast (n : ℕ) (hn : n ≤ u32Max) : u32ofF32 (n : ℚ) = n := by
  rw [u32ofF32, roundHalfAway_natCast]
  unfold u32Max at hn ⊢
  omega

lemma u32ofF32_nat_mul (a p : ℕ) (h : a * p ≤ u32Max) :
    u32ofF32 ((a : ℚ) * (p : ℚ)) = a * p := by
  have hc : ((a : ℚ) * (p : ℚ)) = ((a * p : ℕ) : ℚ) := by push_cast; ring
  rw [hc]
  exact u32ofF32_natCast _ h

lemma u32ofF32_of_nonpos {q : ℚ} (h : q ≤ 0) : u32ofF32 q = 0 := by
  have hr : roundHalfAway q ≤ 0 := by
    rw [roundHalfAway]
    split
    · rename_i h0
      have hq : q = 0 := le_antisymm h h0
      subst hq
      have hfl : ⌊(0 : ℚ) + 1/2⌋ = 0 := by
        rw [Int.floor_eq_iff]
        norm_num
      omega
    · have hfl : (0 : ℤ) ≤ ⌊-q + 1/2⌋ := Int.floor_nonneg.mpr (by linarith)
      omega
  rw [u32ofF32, Int.toNat_of_nonpos hr]
  simp

lemma le_u32ofF32 {q : ℚ} (n : ℕ) (hn : n ≤ u32Max) (h : (n : ℚ) ≤ q) :
    n ≤ u32ofF32 q := by
  have h0 : (0 : ℚ) ≤ q := le_trans (by positivity) h
  have hf : (n : ℤ) ≤ roundHalfAway q := by
    rw [roundHalfAway, if_pos h0]
    apply Int.le_floor.mpr
    push_cast
    linarith
  rw [u32ofF32]
  refine Nat.le_min.mpr ⟨?_, hn⟩
  omega

/-- Unfolding of `to_scissor_rect` with its `let` bindings expanded. -/
lemma to_scissor_rect_eq_ite (r : Rect) (s : ScreenDescriptor) :
    to_scissor_rect r s =
      if min (u32ofF32 (r.right * s.pixel_per_point)) s.screen_width -
           min (u32ofF32 (r.left * s.pixel_per_point)) s.screen_width ≠ 0 ∧
         min (u32ofF32 (r.bottom * s.pixel_per_point)) s.screen_height -
           min (u32ofF32 (r.top * s.pixel_per_point)) s.screen_height ≠ 0 then
        some (min (u32ofF32 (r.left * s.pixel_per_point)) s.screen_width,
              min (u32ofF32 (r.top * s.pixel_per_point)) s.screen_height,
              min (u32ofF32 (r.right * s.pixel_per_point)) s.screen_width -
                min (u32ofF32 (r.left * s.pixel_per_point)) s.screen_width,
              min (u32ofF32 (r.bottom * s.pixel_per_point)) s.screen_height -
                min (u32ofF32 (r.top * s.pixel_per_point)) s.screen_height)
      else none := rfl

/-- A clip rect whose scaled extent lies entirely left/right/above/below the screen
area maps to a zero-area scissor rect. -/
lemma to_scissor_rect_none_of_outside (r : Rect) (s : ScreenDescriptor)
    (hw : s.screen_width ≤ u32Max) (hh : s.screen_height ≤ u32Max)
    (h : r.right * s.pixel_per_point ≤ 0 ∨
         (s.screen_width : ℚ) ≤ r.left * s.pixel_per_point ∨
         r.bottom * s.pixel_per_point ≤ 0 ∨
         (s.screen_height : ℚ) ≤ r.top * s.pixel_per_point) :
    to_scissor_rect r s = none := by
  rw [to_scissor_rect_eq_ite]
  rcases h with h | h | h | h
  · rw [u32ofF32_of_nonpos h]
    simp
  · rw [Nat.min_eq_right (le_u32ofF32 s.screen_width hw h)]
    rw [show min (u32ofF32 (r.right * s.pixel_per_point)) s.screen_width -
        s.screen_width = 0 from Nat.sub_eq_zero_of_le (Nat.min_le_right _ _)]
    simp
  · rw [u32ofF32_of_nonpos h]
    simp
  · rw [Nat.min_eq_right (le_u32ofF32 s.screen_height hh h)]
    rw [show min (u32ofF32 (r.bottom * s.pixel_per_point)) s.screen_height -
        s.screen_height = 0 from Nat.sub_eq_zero_of_le (Nat.min_le_right _ _)]
    simp

/-- Evaluation of `to_scissor_rect` on a clip rect and scale factor with natural-number
coordinates reduces to pure `Nat` arithmetic. -/
lemma to_scissor_rect_natRect (l t r b p sw sh : Nat)
    (h1 : l * p ≤ u32Max) (h2 : t * p ≤ u32Max)
    (h3 : r * p ≤ u32Max) (h4 : b * p ≤ u32Max) :
    to_scissor_rect ⟨(l : ℚ), (t : ℚ), (r : ℚ), (b : ℚ)⟩ ⟨(p : ℚ), sw, sh⟩ =
      if min (r * p) sw - min (l * p) sw ≠ 0 ∧ min (b * p) sh - min (t * p) sh ≠ 0 then
        some (min (l * p) sw, min (t * p) sh,
              min (r * p) sw - min (l * p) sw, min (b * p) sh - min (t * p) sh)
      else none := by
  rw [to_scissor_rect_eq_ite]
  simp only [u32ofF32_nat_mul l p h1, u32ofF32_nat_mul t p h2,
    u32ofF32_nat_mul r p h3, u32ofF32_nat_mul b p h4]

/-! ## Helper lemmas about the foreground pass -/

/-- When no `Callback` primitive is present, the foreground loop cannot fail. -/
lemma encodeFgLoop_ok (screen : ScreenDescriptor) :
    ∀ (tris : List ClippedPrimitive), (∀ p ∈ tris, p.primitive ≠ Primitive.callback) →
      ∀ (vofs iofs : Nat), ∃ ds, encodeFgLoop screen tris vofs iofs = .ok ds := by
  intro tris
  induction tris with
  | nil => exact fun _ _ _ => ⟨[], rfl⟩
  | cons p rest ih =>
    intro h vofs iofs
    obtain ⟨clip_rect, prim⟩ := p
    have hrest := fun q hq => h q (List.mem_cons_of_mem _ hq)
    cases hs : to_scissor_rect clip_rect screen with
    | none =>
      obtain ⟨ds, hds⟩ := ih hrest vofs iofs
      exact ⟨ds, by simp [encodeFgLoop, hs, hds]⟩
    | some sc =>
      cases prim with
      | callback => exact absurd rfl (h _ (List.mem_cons_self _ _))
      | mesh m =>
        obtain ⟨ds, hds⟩ := ih hrest (vofs + m.vertices.length * vertexSize)
          (iofs + m.indices.length * indexSize)
        refine ⟨(⟨sc, BindGroupRef.fallback, (vofs, vofs + m.vertices.length * vertexSize),
          (iofs, iofs + m.indices.length * indexSize), m.indices.length⟩ : DrawCmd) :: ds, ?_⟩
        simp [encodeFgLoop, hs, hds, Except.map]

/-- Every draw command the foreground loop records binds the fallback bind group. -/
lemma encodeFgLoop_bind_fallback (screen : ScreenDescriptor) :
    ∀ (tris : List ClippedPrimitive) (vofs iofs : Nat) (ds : List DrawCmd),
      encodeFgLoop screen tris vofs iofs = .ok ds →
      ∀ d ∈ ds, d.bind = BindGroupRef.fallback := by
  intro tris
  induction tris with
  | nil =>
    intro vofs iofs ds h d hd
    simp only [encodeFgLoop] at h
    cases h
    cases hd
  | cons p rest ih =>
    intro vofs iofs ds h d hd
    obtain ⟨clip_rect, prim⟩ := p
    cases hs : to_scissor_rect clip_rect screen with
    | none =>
      simp only [encodeFgLoop, hs] at h
      exact ih _ _ _ h d hd
    | some sc =>
      cases prim with
      | callback => simp [encodeFgLoop, hs] at h
      | mesh m =>
        simp only [encodeFgLoop, hs] at h
        cases hrest : encodeFgLoop screen rest (vofs + m.vertices.length * vertexSize)
            (iofs + m.indices.length * indexSize) with
        | error e => rw [hrest] at h; simp [Except.map] at h
        | ok ds0 =>
          rw [hrest] at h
          simp only [Except.map, Except.ok.injEq] at h
          subst h
          rcases List.mem_cons.mp hd with rfl | hd0
          · rfl
          · exact ih _ _ _ hrest d hd0

/-! ## Helper lemmas about the sampler cache -/

lemma samplerInsert_preserve {m : SamplerMap} {o : TextureOptions} {s : Sampler}
    (x : TextureOptions) (h : m o = some s) : samplerInsert m x o = some s := by
  simp only [samplerInsert]
  cases hmx : m x with
  | some _ => exact h
  | none =>
    by_cases hox : o = x
    · subst hox; rw [h] at hmx; cases hmx
    · simp [hox, h]

lemma update_samplers_preserve (opts : List TextureOptions) {m : SamplerMap}
    {o : TextureOptions} {s : Sampler} (h : m o = some s) :
    update_samplers opts m o = some s := by
  induction opts generalizing m with
  | nil => exact h
  | cons x rest ih => exact ih (samplerInsert_preserve x h)

lemma samplerInsert_self (m : SamplerMap) (x : TextureOptions) :
    ∃ s, samplerInsert m x x = some s := by
  cases hmx : m x with
  | some s => exact ⟨s, by simp [samplerInsert, hmx]⟩
  | none => exact ⟨into_sampler x, by simp [samplerInsert, hmx]⟩

lemma update_samplers_isSome (opts : List TextureOptions) (o : TextureOptions) :
    o ∈ opts → ∀ m : SamplerMap, (update_samplers opts m o).isSome := by
  induction opts with
  | nil => intro h; cases h
  | cons x rest ih =>
    intro ho m
    rcases List.mem_cons.mp ho with rfl | hmem
    · obtain ⟨s, hs⟩ := samplerInsert_self m o
      show (update_samplers rest (samplerInsert m o) o).isSome
      rw [update_samplers_preserve rest hs]
      rfl
    · exact ih hmem (samplerInsert m x)

lemma update_samplers_not_mem (opts : List TextureOptions) (o : TextureOptions) :
    o ∉ opts → ∀ m : SamplerMap, update_samplers opts m o = m o := by
  induction opts with
  | nil => intro _ m; rfl
  | cons x rest ih =>
    intro ho m
    have hox : o ≠ x := fun h => ho (h ▸ List.mem_cons_self x rest)
    have h1 : samplerInsert m x o = m o := by
      simp only [samplerInsert]
      cases hmx : m x with
      | some _ => rfl
      | none => simp [hox]
    calc update_samplers (x :: rest) m o
        = update_samplers rest (samplerInsert m x) o := rfl
      _ = samplerInsert m x o := ih (fun h => ho (List.mem_cons_of_mem _ h)) _
      _ = m o := h1

lemma update_samplers_new (opts : List TextureOptions) (o : TextureOptions) :
    o ∈ opts → ∀ m : SamplerMap, m o = none →
      update_samplers opts m o = some (into_sampler o) := by
  induction opts with
  | nil => intro h; cases h
  | cons x rest ih =>
    intro ho m hmo
    by_cases hox : o = x
    · subst hox
      have hins : samplerInsert m o o = some (into_sampler o) := by
        simp [samplerInsert, hmo]
      exact update_samplers_preserve rest hins
    · rcases List.mem_cons.mp ho with rfl | hmem
      · exact absurd rfl hox
      · apply ih hmem
        simp only [samplerInsert]
        cases hmx : m x with
        | some _ => exact hmo
        | none => simp [hox, hmo]

/-! ## Helper lemmas about new-texture deltas -/

/-- If some new-texture delta's options have no cached sampler, processing the batch
hits the `expect` panic. -/
lemma send_texture_images_new_error (samplers : SamplerMap) :
    ∀ (images : List (TextureId × ImageDelta)) (id : TextureId) (img : ImageDelta),
      (id, img) ∈ images → img.pos = none → samplers img.options = none →
      send_texture_images_new samplers images = .error "Sampler must be configured" := by
  intro images
  induction images with
  | nil => intro id img h; cases h
  | cons hd rest ih =>
    intro id img hmem hpos hsam
    obtain ⟨idh, imgh⟩ := hd
    rcases List.mem_cons.mp hmem with heq | hmem0
    · cases heq
      simp [send_texture_images_new, hpos, hsam]
    · have herr := ih id img hmem0 hpos hsam
      by_cases hp : imgh.pos.isSome
      · simp [send_texture_images_new, hp, herr]
      · cases hs : samplers imgh.options with
        | some s => simp [send_texture_images_new, hp, hs, herr, Except.map]
        | none => simp [send_texture_images_new, hp, hs]

/-- If every new-texture delta's options have a cached sampler, processing the batch
succeeds (the panic branch is unreachable). -/
lemma send_texture_images_new_ok (samplers : SamplerMap) :
    ∀ images : List (TextureId × ImageDelta),
      (∀ id img, (id, img) ∈ images → img.pos = none → (samplers img.options).isSome) →
      ∃ l, send_texture_images_new samplers images = .ok l := by
  intro images
  induction images with
  | nil => exact fun _ => ⟨[], rfl⟩
  | cons hd rest ih =>
    intro h
    obtain ⟨idh, imgh⟩ := hd
    obtain ⟨l, hl⟩ := ih (fun id img hm hp => h id img (List.mem_cons_of_mem _ hm) hp)
    by_cases hp : imgh.pos.isSome
    · exact ⟨l, by simp [send_texture_images_new, hp, hl]⟩
    · have hs := h idh imgh (List.mem_cons_self _ _) (Option.not_isSome_iff_eq_none.mp hp)
      obtain ⟨s, hs0⟩ := Option.isSome_iff_exists.mp hs
      refine ⟨(idh, into_texture (imgh.image.width, imgh.image.height), s) :: l, ?_⟩
      simp [send_texture_images_new, hp, hs0, hl, Except.map]


/-! ## Concrete fixtures -/

/-- A concrete vertex value. -/
def v0 : Vertex := ⟨0, 0, 0, 0, 0⟩

/-- A concrete texture id. -/
def tid0 : TextureId := .managed 0

/-- A clip rect fully inside an 800×600 screen at scale factor 1. -/
def rectIn : Rect := ⟨(0 : ℕ), (0 : ℕ), (100 : ℕ), (100 : ℕ)⟩

/-- A clip rect fully to the right of an 800×600 screen at scale factor 1. -/
def rectOut : Rect := ⟨(900 : ℕ), (10 : ℕ), (950 : ℕ), (50 : ℕ)⟩

/-- An 800×600 screen at scale factor 1. -/
def screen1 : ScreenDescriptor := ⟨(1 : ℕ), 800, 600⟩

lemma scissor_rectIn : to_scissor_rect rectIn screen1 = some (0, 0, 100, 100) := by
  unfold rectIn screen1
  rw [to_scissor_rect_natRect 0 0 100 100 1 800 600 (by norm_num [u32Max])
    (by norm_num [u32Max]) (by norm_num [u32Max]) (by norm_num [u32Max])]
  decide

lemma scissor_rectOut : to_scissor_rect rectOut screen1 = none := by
  unfold rectOut screen1
  refine to_scissor_rect_none_of_outside _ _ (by norm_num [u32Max]) (by norm_num [u32Max]) ?_
  refine Or.inr (Or.inl ?_)
  push_cast
  norm_num

/-- Frame for claim C1: the first mesh is fully clipped away, the second is visible. -/
def tris1 : List ClippedPrimitive :=
  [⟨rectOut, .mesh ⟨[v0, v0, v0], [0, 1, 2], tid0⟩⟩,
   ⟨rectIn, .mesh ⟨[v0, v0, v0, v0], [0, 1, 2, 2, 3, 0], tid0⟩⟩]

/-- C1: the claim states that every drawn mesh's indexed draw references exactly its own
staged byte-range slice even when an earlier primitive is skipped for having a zero-area
scissor rect. The code violates this: `send_vertex_buffer`/`send_index_buffer` stage every
mesh (including fully clipped ones), but `encode_fg` advances `voffset`/`ioffset` only for
primitives that pass the scissor test. On `tris1` the second mesh is staged at vertex
bytes [60, 140) and index bytes [12, 36), yet its draw references [0, 80) and [0, 24) —
the skipped first mesh's staged bytes. -/
theorem c1_skipped_primitive_misaligned_slices :
    vertexWrites tris1 0 = [(0, 60, [v0, v0, v0]), (60, 140, [v0, v0, v0, v0])] ∧
    indexWrites tris1 0 = [(0, 12, [0, 1, 2]), (12, 36, [0, 1, 2, 2, 3, 0])] ∧
    encode_fg screen1 tris1 =
      .ok [⟨(0, 0, 100, 100), BindGroupRef.fallback, (0, 80), (0, 24), 6⟩] ∧
    ((0, 80) : Nat × Nat) ≠ (60, 140) := by
  refine ⟨rfl, rfl, ?_, by decide⟩
  simp only [encode_fg, tris1, encodeFgLoop, scissor_rectOut, scissor_rectIn,
    Except.map, vertexSize, indexSize, List.length_cons, List.length_nil]

/-- Frame with one mesh primitive whose texture id is `tid0`, fully visible. -/
def prim2 : ClippedPrimitive := ⟨rectIn, .mesh ⟨[v0, v0, v0], [0, 1, 2], tid0⟩⟩

/-- A texture cache holding an entry for `tid0`. -/
def cache2 : TextureCache := fun id => if id = tid0 then some ⟨⟨8, 8⟩, 42⟩ else none

/-- C2 counterexample: even with a cache entry present for the primitive's texture id,
the foreground pass binds the fallback bind group, not the cached resource (the source's
`encode_fg` never consults the texture cache). -/
theorem c2_cached_binding_counterexample :
    cache2 tid0 = some ⟨⟨8, 8⟩, 42⟩ ∧
    encode_fg screen1 [prim2] =
      .ok [⟨(0, 0, 100, 100), BindGroupRef.fallback, (0, 60), (0, 12), 3⟩] ∧
    BindGroupRef.fallback ≠ BindGroupRef.cached tid0 := by
  refine ⟨rfl, ?_, by decide⟩
  simp only [encode_fg, prim2, encodeFgLoop, scissor_rectIn, Except.map,
    vertexSize, indexSize, List.length_cons, List.length_nil]

/-- C2 amended: the foreground pass always binds the 1×1 fallback bind group for every
drawn primitive, whether or not the texture cache contains the primitive's texture id;
a mesh-only frame never fails on account of texture ids, and `release_textures` removes
evicted ids from the cache (after which drawing still succeeds with the fallback). -/
theorem c2_fallback_always_bound :
    (∀ (screen : ScreenDescriptor) (tris : List ClippedPrimitive) (ds : List DrawCmd),
        encode_fg screen tris = .ok ds → ∀ d ∈ ds, d.bind = BindGroupRef.fallback) ∧
    (∀ (screen : ScreenDescriptor) (tris : List ClippedPrimitive),
        (∀ p ∈ tris, p.primitive ≠ Primitive.callback) →
        ∃ ds, encode_fg screen tris = .ok ds) ∧
    (∀ (ids : List TextureId) (cache : TextureCache) (id : TextureId),
        id ∈ ids → release_textures ids cache id = none) := by
  refine ⟨?_, ?_, ?_⟩
  · intro screen tris ds h d hd
    exact encodeFgLoop_bind_fallback screen tris 0 0 ds h d hd
  · intro screen tris h
    exact encodeFgLoop_ok screen tris h 0 0
  · intro ids cache id hid
    simp [release_textures, hid]

theorem c2_fallback_always_bound_witness :
    (∀ d ∈ [(⟨(0, 0, 100, 100), BindGroupRef.fallback, (0, 60), (0, 12), 3⟩ : DrawCmd)],
        d.bind = BindGroupRef.fallback) ∧
    (∃ ds, encode_fg screen1 [prim2] = .ok ds) ∧
    release_textures [tid0] cache2 tid0 = none := by
  have henc : encode_fg screen1 [prim2] =
      .ok [⟨(0, 0, 100, 100), BindGroupRef.fallback, (0, 60), (0, 12), 3⟩] := by
    simp only [encode_fg, prim2, encodeFgLoop, scissor_rectIn, Except.map,
      vertexSize, indexSize, List.length_cons, List.length_nil]
  refine ⟨c2_fallback_always_bound.1 screen1 [prim2] _ henc,
    c2_fallback_always_bound.2.1 screen1 [prim2] (by decide),
    c2_fallback_always_bound.2.2 [tid0] cache2 tid0 (List.mem_singleton.mpr rfl)⟩

/-- C3: the scissor mapping at `pixels_per_point = 2`, screen 800×600: clip rect
(10,10)-(50,50) maps to (20,20,80,80); any clip rect whose scaled edges lie entirely
outside [0,800]×[0,600] maps to a zero-area rect, and a primitive whose clip rect maps
to a zero-area rect is skipped: no scissor is set and no draw is issued for it. -/
theorem c3_scissor_mapping :
    to_scissor_rect ⟨(10 : ℚ), 10, 50, 50⟩ ⟨(2 : ℚ), 800, 600⟩ = some (20, 20, 80, 80) ∧
    (∀ r : Rect,
        (r.right * 2 ≤ 0 ∨ (800 : ℚ) ≤ r.left * 2 ∨
         r.bottom * 2 ≤ 0 ∨ (600 : ℚ) ≤ r.top * 2) →
        to_scissor_rect r ⟨(2 : ℚ), 800, 600⟩ = none) ∧
    (∀ (r : Rect) (p : Primitive), to_scissor_rect r ⟨(2 : ℚ), 800, 600⟩ = none →
        encode_fg ⟨(2 : ℚ), 800, 600⟩ [⟨r, p⟩] = .ok []) := by
  refine ⟨?_, ?_, ?_⟩
  · rw [show (⟨(10 : ℚ), 10, 50, 50⟩ : Rect) =
        ⟨((10 : ℕ) : ℚ), ((10 : ℕ) : ℚ), ((50 : ℕ) : ℚ), ((50 : ℕ) : ℚ)⟩ by norm_num]
    rw [show (⟨(2 : ℚ), 800, 600⟩ : ScreenDescriptor) = ⟨((2 : ℕ) : ℚ), 800, 600⟩ by norm_num]
    rw [to_scissor_rect_natRect 10 10 50 50 2 800 600 (by norm_num [u32Max])
      (by norm_num [u32Max]) (by norm_num [u32Max]) (by norm_num [u32Max])]
    decide
  · intro r h
    apply to_scissor_rect_none_of_outside _ _ (by norm_num [u32Max]) (by norm_num [u32Max])
    rcases h with h | h | h | h
    · exact Or.inl h
    · refine Or.inr (Or.inl ?_)
      show ((800 : ℕ) : ℚ) ≤ r.left * 2
      push_cast
      exact h
    · exact Or.inr (Or.inr (Or.inl h))
    · refine Or.inr (Or.inr (Or.inr ?_))
      show ((600 : ℕ) : ℚ) ≤ r.top * 2
      push_cast
      exact h
  · intro r p h
    simp [encode_fg, encodeFgLoop, h]

theorem c3_scissor_mapping_witness :
    to_scissor_rect ⟨(450 : ℚ), 10, 480, 50⟩ ⟨(2 : ℚ), 800, 600⟩ = none ∧
    encode_fg ⟨(2 : ℚ), 800, 600⟩ [⟨⟨(450 : ℚ), 10, 480, 50⟩, Primitive.callback⟩] = .ok [] := by
  have h1 := c3_scissor_mapping.2.1 ⟨(450 : ℚ), 10, 480, 50⟩ (Or.inr (Or.inl (by norm_num)))
  exact ⟨h1, c3_scissor_mapping.2.2 _ _ h1⟩


/-- The capacity component of `send_vertex_buffer` is the growth policy applied to the
held capacity. -/
lemma send_vertex_buffer_fst (req cap : Nat) (tris : List ClippedPrimitive) :
    (send_vertex_buffer req tris cap).1 = if cap ≤ req then req * 2 else cap := rfl

/-- The capacity component of `send_index_buffer` is the growth policy applied to the
held capacity. -/
lemma send_index_buffer_fst (req cap : Nat) (tris : List ClippedPrimitive) :
    (send_index_buffer req tris cap).1 = if cap ≤ req then req * 2 else cap := rfl

/-- C4: after each staging call the vertex (resp. index) buffer capacity is at least
the requested size and never smaller than before; when the current capacity is at most
the required bytes the buffer is replaced by one of exactly twice the required bytes,
otherwise it is reused unchanged; and across any sequence of staging calls in one
session the capacity never decreases. -/
theorem c4_buffer_growth :
    (∀ (req cap : Nat) (tris : List ClippedPrimitive),
        req ≤ (send_vertex_buffer req tris cap).1 ∧ cap ≤ (send_vertex_buffer req tris cap).1 ∧
        req ≤ (send_index_buffer req tris cap).1 ∧ cap ≤ (send_index_buffer req tris cap).1) ∧
    (∀ (req cap : Nat) (tris : List ClippedPrimitive), cap ≤ req →
        (send_vertex_buffer req tris cap).1 = req * 2 ∧
        (send_index_buffer req tris cap).1 = req * 2) ∧
    (∀ (req cap : Nat) (tris : List ClippedPrimitive), req < cap →
        (send_vertex_buffer req tris cap).1 = cap ∧
        (send_index_buffer req tris cap).1 = cap) ∧
    (∀ (reqs : List Nat) (cap : Nat),
        cap ≤ reqs.foldl (fun c r => (send_vertex_buffer r [] c).1) cap ∧
        cap ≤ reqs.foldl (fun c r => (send_index_buffer r [] c).1) cap) := by
  have hstep : ∀ cap req : Nat, cap ≤ (if cap ≤ req then req * 2 else cap) := by
    intro cap req
    split <;> omega
  refine ⟨?_, ?_, ?_, ?_⟩
  · intro req cap tris
    simp only [send_vertex_buffer_fst, send_index_buffer_fst]
    refine ⟨?_, hstep cap req, ?_, hstep cap req⟩ <;> (split <;> omega)
  · intro req cap tris h
    simp only [send_vertex_buffer_fst, send_index_buffer_fst, if_pos h]
    exact ⟨trivial, trivial⟩
  · intro req cap tris h
    simp only [send_vertex_buffer_fst, send_index_buffer_fst, if_neg (by omega : ¬cap ≤ req)]
    exact ⟨trivial, trivial⟩
  · intro reqs
    induction reqs with
    | nil => exact fun cap => ⟨Nat.le_refl cap, Nat.le_refl cap⟩
    | cons r rest ih =>
      intro cap
      constructor
      · calc cap ≤ (send_vertex_buffer r [] cap).1 := by
              rw [send_vertex_buffer_fst]; exact hstep cap r
          _ ≤ _ := (ih _).1
      · calc cap ≤ (send_index_buffer r [] cap).1 := by
              rw [send_index_buffer_fst]; exact hstep cap r
          _ ≤ _ := (ih _).2

theorem c4_buffer_growth_witness :
    (send_vertex_buffer 10 [] 5).1 = 20 ∧ (send_vertex_buffer 10 [] 25).1 = 25 ∧
    (send_index_buffer 7 [] 7).1 = 14 ∧ 6 ≤ [10, 3, 50].foldl
      (fun c r => (send_vertex_buffer r [] c).1) 6 := by
  refine ⟨?_, ?_, ?_, (c4_buffer_growth.2.2.2 [10, 3, 50] 6).1⟩
  · exact (c4_buffer_growth.2.1 10 5 [] (by decide)).1
  · exact (c4_buffer_growth.2.2.1 10 25 [] (by decide)).1
  · exact (c4_buffer_growth.2.1 7 7 [] (by decide)).2

/-- A fully visible primitive carrying an unsupported paint callback. -/
def cbPrim : ClippedPrimitive := ⟨rectIn, Primitive.callback⟩

/-- C5 counterexample: the claim requires a reported, named failure for a `Callback`
primitive in the staging step and in the draw step, and "not a crash". In the code the
staging step is silent for `Callback` (it measures (0,0) and stages nothing — the same
observable outcome as for an empty list, with no error channel), and the draw step hits
`panic!("Not implemented")` — a process-aborting panic, modelled as the error value. -/
theorem c5_callback_silent_staging_cex :
    measure_buffer_size [cbPrim] = (0, 0) ∧
    send_vertex_buffer 0 [cbPrim] 0 = (0, []) ∧
    send_index_buffer 0 [cbPrim] 0 = (0, []) ∧
    encode_fg screen1 [cbPrim] = .error "Not implemented" := by
  refine ⟨rfl, rfl, rfl, ?_⟩
  simp only [encode_fg, cbPrim, encodeFgLoop, scissor_rectIn]

/-- C5 amended: staging silently skips `Callback` primitives (they contribute zero
bytes and produce no staging writes, with no failure signalled), while the draw step
terminates with the named panic "Not implemented" whenever a `Callback` primitive's
scissor rect is non-empty. -/
theorem c5_callback_staging_skip_draw_panic :
    (∀ (r : Rect) (rest : List ClippedPrimitive),
        measure_buffer_size (⟨r, Primitive.callback⟩ :: rest) = measure_buffer_size rest) ∧
    (∀ (r : Rect) (rest : List ClippedPrimitive) (ofs : Nat),
        vertexWrites (⟨r, Primitive.callback⟩ :: rest) ofs = vertexWrites rest ofs ∧
        indexWrites (⟨r, Primitive.callback⟩ :: rest) ofs = indexWrites rest ofs) ∧
    (∀ (r : Rect) (rest : List ClippedPrimitive) (screen : ScreenDescriptor)
        (sc : Nat × Nat × Nat × Nat), to_scissor_rect r screen = some sc →
        encode_fg screen (⟨r, Primitive.callback⟩ :: rest) = .error "Not implemented") := by
  refine ⟨fun r rest => rfl, fun r rest ofs => ⟨rfl, rfl⟩, ?_⟩
  intro r rest screen sc h
  simp [encode_fg, encodeFgLoop, h]

theorem c5_callback_witness :
    encode_fg screen1 [⟨rectIn, Primitive.callback⟩] = .error "Not implemented" :=
  c5_callback_staging_skip_draw_panic.2.2 rectIn [] screen1 (0, 0, 100, 100) scissor_rectIn

/-- Sampling options used by concrete texture deltas. -/
def o0 : TextureOptions := ⟨.Linear, .Linear, .ClampToEdge⟩

/-- A patch delta (position present) used by the C6 witness. -/
def img0 : ImageDelta := ⟨⟨2, 2, [1, 2, 3, 4]⟩, o0, some (3, 5)⟩

/-- A texture cache holding an entry for `tid0`, used by the C6 witness. -/
def cacheW : TextureCache := fun id => if id = tid0 then some ⟨⟨8, 8⟩, 7⟩ else none

/-- C6: a delta whose position is present and whose id is cached uploads the patch
image at the given pixel offset into the cached entry's texture; a delta whose position
is present but whose id is absent performs no upload while the remaining deltas in the
batch are still applied. -/
theorem c6_patch_delta :
    (∀ (id : TextureId) (img : ImageDelta) (rest : List (TextureId × ImageDelta))
        (cache : TextureCache) (pos : Nat × Nat) (res : TextureResource),
        img.pos = some pos → cache id = some res →
        send_texture_images_pos ((id, img) :: rest) cache =
          ⟨res.texture, pos, (img.image.width, img.image.height), img.image.pixels⟩ ::
            send_texture_images_pos rest cache) ∧
    (∀ (id : TextureId) (img : ImageDelta) (rest : List (TextureId × ImageDelta))
        (cache : TextureCache) (pos : Nat × Nat),
        img.pos = some pos → cache id = none →
        send_texture_images_pos ((id, img) :: rest) cache =
          send_texture_images_pos rest cache) := by
  constructor
  · intro id img rest cache pos res hpos hcache
    simp [send_texture_images_pos, hpos, hcache]
  · intro id img rest cache pos hpos hcache
    simp [send_texture_images_pos, hpos, hcache]

theorem c6_patch_delta_witness :
    send_texture_images_pos [(tid0, img0)] cacheW = [⟨⟨8, 8⟩, (3, 5), (2, 2), [1, 2, 3, 4]⟩] ∧
    send_texture_images_pos [(TextureId.managed 1, img0), (tid0, img0)] cacheW =
      [⟨⟨8, 8⟩, (3, 5), (2, 2), [1, 2, 3, 4]⟩] := by
  constructor
  · rw [c6_patch_delta.1 tid0 img0 [] cacheW (3, 5) ⟨⟨8, 8⟩, 7⟩ rfl rfl]
    rfl
  · rw [c6_patch_delta.2 (TextureId.managed 1) img0 [(tid0, img0)] cacheW (3, 5) rfl rfl,
      c6_patch_delta.1 tid0 img0 [] cacheW (3, 5) ⟨⟨8, 8⟩, 7⟩ rfl rfl]
    rfl

/-- C7: for every screen with positive width and height, rendering an empty primitive
list succeeds with exactly one background-clear pass, no staging, no foreground draws,
and the frame still presented. -/
theorem c7_empty_frame :
    ∀ screen : ScreenDescriptor, 0 < screen.screen_width → 0 < screen.screen_height →
      render screen [] = .ok ⟨1, none, [], true⟩ := by
  intro screen h1 h2
  rfl

theorem c7_empty_frame_witness :
    render ⟨(1 : ℚ), 800, 600⟩ [] = .ok ⟨1, none, [], true⟩ :=
  c7_empty_frame ⟨(1 : ℚ), 800, 600⟩ (by decide) (by decide)


/-- Frame for claim C8: a normal mesh followed by a mesh with one vertex and zero
indices. -/
def tris8 : List ClippedPrimitive :=
  [⟨rectIn, .mesh ⟨[v0, v0, v0], [0, 1, 2], tid0⟩⟩, ⟨rectIn, .mesh ⟨[v0], [], tid0⟩⟩]

/-- C8 counterexample: the claim says the zero-size mesh contributes zero bytes to
staging and yields a zero-size draw. In the code a mesh with zero indices but one
vertex still stages its 20 vertex bytes (range [60, 80) here), and a mesh with zero
vertices but three indices yields a draw over 3 indices, not a zero-size draw. -/
theorem c8_zero_size_mesh_cex :
    measure_buffer_size tris8 = (80, 12) ∧
    vertexWrites tris8 0 = [(0, 60, [v0, v0, v0]), (60, 80, [v0])] ∧
    (80 : Nat) - 60 ≠ 0 ∧
    encode_fg screen1 [⟨rectIn, .mesh ⟨[], [0, 1, 2], tid0⟩⟩] =
      .ok [⟨(0, 0, 100, 100), BindGroupRef.fallback, (0, 0), (0, 12), 3⟩] ∧
    (3 : Nat) ≠ 0 := by
  refine ⟨rfl, rfl, by decide, ?_, by decide⟩
  simp only [encode_fg, encodeFgLoop, scissor_rectIn, Except.map,
    vertexSize, indexSize, List.length_cons, List.length_nil]

/-- C8 amended: rendering a mesh-only frame never errors, whatever the vertex and
index counts; a drawn mesh with zero indices yields a zero-size draw (index count 0,
and at the head of the frame an empty index slice); and a mesh with zero vertices and
zero indices contributes an empty staging write and zero bytes to the measured
totals. -/
theorem c8_zero_size_mesh_amended :
    (∀ (screen : ScreenDescriptor) (tris : List ClippedPrimitive),
        (∀ p ∈ tris, p.primitive ≠ Primitive.callback) →
        ∃ res, render screen tris = .ok res) ∧
    (∀ (screen : ScreenDescriptor) (r : Rect) (m : Mesh) (rest : List ClippedPrimitive)
        (sc : Nat × Nat × Nat × Nat) (ds : List DrawCmd),
        to_scissor_rect r screen = some sc → m.indices = [] →
        encode_fg screen (⟨r, Primitive.mesh m⟩ :: rest) = .ok ds →
        ∃ d ds2, ds = d :: ds2 ∧ d.index_count = 0 ∧ d.irange = (0, 0)) ∧
    (∀ (r : Rect) (tid : TextureId) (rest : List ClippedPrimitive) (ofs : Nat),
        vertexWrites (⟨r, Primitive.mesh ⟨[], [], tid⟩⟩ :: rest) ofs =
          (ofs, ofs, []) :: vertexWrites rest ofs ∧
        indexWrites (⟨r, Primitive.mesh ⟨[], [], tid⟩⟩ :: rest) ofs =
          (ofs, ofs, []) :: indexWrites rest ofs ∧
        measure_buffer_size (⟨r, Primitive.mesh ⟨[], [], tid⟩⟩ :: rest) =
          measure_buffer_size rest) := by
  refine ⟨?_, ?_, ?_⟩
  · intro screen tris h
    obtain ⟨ds, hds⟩ := encodeFgLoop_ok screen tris h 0 0
    by_cases hc : (measure_buffer_size tris).1 > 0 ∧ (measure_buffer_size tris).2 > 0
    · refine ⟨⟨1, some (measure_buffer_size tris), ds, true⟩, ?_⟩
      simp [render, encode_fg, hds, hc]
    · refine ⟨⟨1, none, [], true⟩, ?_⟩
      simp [render, hc]
  · intro screen r m rest sc ds hsc hm hok
    simp only [encode_fg, encodeFgLoop, hsc] at hok
    cases hrest : encodeFgLoop screen rest (0 + m.vertices.length * vertexSize)
        (0 + m.indices.length * indexSize) with
    | error e => rw [hrest] at hok; simp [Except.map] at hok
    | ok ds0 =>
      rw [hrest] at hok
      simp only [Except.map, Except.ok.injEq] at hok
      refine ⟨_, ds0, hok.symm, ?_, ?_⟩ <;> simp [hm, indexSize]
  · intro r tid rest ofs
    exact ⟨rfl, rfl, rfl⟩

theorem c8_zero_size_mesh_witness :
    (∃ res, render screen1 tris8 = .ok res) ∧
    vertexWrites [⟨rectIn, Primitive.mesh ⟨[], [], tid0⟩⟩] 0 = [(0, 0, [])] := by
  refine ⟨c8_zero_size_mesh_amended.1 screen1 tris8 (by decide), ?_⟩
  rw [(c8_zero_size_mesh_amended.2.2 rectIn tid0 [] 0).1]
  rfl

/-- A concrete sampler value distinct from the one `into_sampler` would create. -/
def s0 : Sampler := ⟨.Nearest, .Nearest, .Repeat, .Repeat⟩

/-- C9: the sampler-cache update is non-destructive and idempotent: it never replaces
an existing entry, creates a freshly built sampler exactly for requested keys that are
absent, leaves keys outside the request untouched, and applying the same update twice
equals applying it once. -/
theorem c9_sampler_cache :
    (∀ (opts : List TextureOptions) (m : SamplerMap) (o : TextureOptions) (s : Sampler),
        m o = some s → update_samplers opts m o = some s) ∧
    (∀ (opts : List TextureOptions) (m : SamplerMap) (o : TextureOptions),
        o ∈ opts → m o = none → update_samplers opts m o = some (into_sampler o)) ∧
    (∀ (opts : List TextureOptions) (m : SamplerMap) (o : TextureOptions),
        o ∉ opts → update_samplers opts m o = m o) ∧
    (∀ (opts : List TextureOptions) (m : SamplerMap),
        update_samplers opts (update_samplers opts m) = update_samplers opts m) := by
  refine ⟨?_, ?_, ?_, ?_⟩
  · intro opts m o s h
    exact update_samplers_preserve opts h
  · intro opts m o ho hmo
    exact update_samplers_new opts o ho m hmo
  · intro opts m o ho
    exact update_samplers_not_mem opts o ho m
  · intro opts m
    funext o
    by_cases ho : o ∈ opts
    · obtain ⟨s, hs⟩ := Option.isSome_iff_exists.mp (update_samplers_isSome opts o ho m)
      rw [update_samplers_preserve opts hs, hs]
    · exact update_samplers_not_mem opts o ho (update_samplers opts m)

theorem c9_sampler_cache_witness :
    update_samplers [o0] (fun _ => none) o0 = some (into_sampler o0) ∧
    update_samplers [o0] (fun o => if o = o0 then some s0 else none) o0 = some s0 ∧
    update_samplers [o0] (update_samplers [o0] (fun _ => none)) =
      update_samplers [o0] (fun _ => none) := by
  refine ⟨?_, ?_, c9_sampler_cache.2.2.2 [o0] (fun _ => none)⟩
  · exact c9_sampler_cache.2.1 [o0] (fun _ => none) o0 (List.mem_singleton.mpr rfl) rfl
  · exact c9_sampler_cache.1 [o0] (fun o => if o = o0 then some s0 else none) o0 s0 (by simp)

/-- A new-texture delta (position absent) with options `o0`. -/
def img1 : ImageDelta := ⟨⟨1, 1, [5]⟩, o0, none⟩

/-- C10: processing new-texture deltas panics ("Sampler must be configured") whenever
some new delta's exact options key is absent from the sampler map; and under the
precondition that `update_samplers` was first applied to an options list containing
every new delta's options, the panic branch is unreachable and processing succeeds. -/
theorem c10_sampler_precondition :
    (∀ (samplers : SamplerMap) (images : List (TextureId × ImageDelta))
        (id : TextureId) (img : ImageDelta),
        (id, img) ∈ images → img.pos = none → samplers img.options = none →
        send_texture_images_new samplers images = .error "Sampler must be configured") ∧
    (∀ (opts : List TextureOptions) (m : SamplerMap) (images : List (TextureId × ImageDelta)),
        (∀ id img, (id, img) ∈ images → img.pos = none → img.options ∈ opts) →
        ∃ l, send_texture_images_new (update_samplers opts m) images = .ok l) := by
  constructor
  · intro samplers images id img hmem hpos hsam
    exact send_texture_images_new_error samplers images id img hmem hpos hsam
  · intro opts m images h
    apply send_texture_images_new_ok
    intro id img hmem hpos
    exact update_samplers_isSome opts img.options (h id img hmem hpos) m

theorem c10_sampler_precondition_witness :
    send_texture_images_new (fun _ => none) [(tid0, img1)] =
      .error "Sampler must be configured" ∧
    ∃ l, send_texture_images_new (update_samplers [o0] (fun _ => none)) [(tid0, img1)] =
      .ok l := by
  constructor
  · exact c10_sampler_precondition.1 (fun _ => none) [(tid0, img1)] tid0 img1
      (List.mem_singleton.mpr rfl) rfl rfl
  · apply c10_sampler_precondition.2 [o0] (fun _ => none) [(tid0, img1)]
    intro id img hmem hpos
    have h := List.mem_singleton.mp hmem
    rw [Prod.mk.injEq] at h
    obtain ⟨rfl, rfl⟩ := h
    exact List.mem_singleton.mpr rfl


end EguiDemo
